import Mathlib

/-!
Verification of the appealTrax case-management front-end.

This file gives a shallow embedding, in Lean, of the derivation and
validation logic of the repository: the latest-per-writ reduction and the
upcoming-hearings queue of the Proceedings page, the proceeding creation
form (type reset effect, payload assembly, attachment validation,
submission), the shared HTTP request wrapper, the draft-exclusion filter,
the dashboard aggregation, and the free-text proceeding search.

Conventions of the embedding:
  - JavaScript date values are modelled as epoch-millisecond natural
    numbers; a missing, empty or unparsable date string is modelled as
    Option.none where the code treats it as falsy.
  - JavaScript numbers used as sequence counters are modelled as Int;
    the sentinel value -Infinity that the code substitutes for a missing
    sequence is modelled by comparing Option Int values with none below
    every some.
  - JavaScript strings are Lean Strings; case folding and substring
    matching work on the underlying character lists so that all
    definitions evaluate by kernel reduction.
-/

namespace AppealTrax


/-! ## Data model (src/types.ts) -/

/-- Slice of the FIR (writ) record used by the Proceedings page:
identity, writ number, petitioner name and writ type. -/
structure FIRRec where
  _id : String
  firNumber : String
  petitionerName : String
  writType : String
deriving DecidableEq

/-- The fir field of a fetched proceeding: either a plain id string or an
embedded writ object (Proceeding.fir has type string | FIR). -/
inductive FirRef where
  | byId (id : String)
  | emb (fir : FIRRec)
deriving DecidableEq

/-- Hearing details of a fetched proceeding.  The date is in epoch
milliseconds; none models an absent or empty date string. -/
structure ProcHearing where
  dateOfHearing : Option Nat
  judgeName : Option String
  courtNumber : Option String
deriving DecidableEq

/-- Slice of a fetched proceeding record used by the list derivations. -/
structure Proceeding where
  _id : String
  fir : FirRef
  sequence : Option Int
  summary : Option String
  hearingDetails : Option ProcHearing
  createdAt : Option Nat
deriving DecidableEq

/-! ## C3: attachment validation (Proceedings.tsx lines 1535-1552 and 360-370)

The order-of-proceeding file input rejects a file larger than 250 * 1024
bytes, then rejects a MIME type outside the allowed list; on rejection it
surfaces an error message and clears the DOM input without storing the
file, and on acceptance it stores the file and clears the error. -/

/-- The allowedTypes list of the file handlers. -/
def allowedTypes : List String :=
  ["application/pdf", "image/png", "image/jpeg", "image/jpg",
   "application/vnd.openxmlformats-officedocument.spreadsheetml.sheet",
   "application/vnd.ms-excel"]

/-- A candidate file: its byte size and its MIME type. -/
structure FileRec where
  size : Nat
  mime : String
deriving DecidableEq

/-- Result of the file-input change handler: the stored file state, whether
the DOM input was cleared, and the error banner. -/
structure FileChangeOutcome where
  stored : Option FileRec
  inputCleared : Bool
  error : Option String
deriving DecidableEq

/-- The onChange handler of the order-of-proceeding file input
(Proceedings.tsx lines 1535-1552): size check first, then MIME type check;
a violation keeps the previously stored file state, clears the input
element and sets the error; acceptance stores the file and clears the
error. -/
def orderFileOnChange (prev : Option FileRec) (f : FileRec) : FileChangeOutcome :=
  if 250 * 1024 < f.size then
    { stored := prev, inputCleared := true,
      error := some "File size exceeds 250 KB limit" }
  else if ¬ (f.mime ∈ allowedTypes) then
    { stored := prev, inputCleared := true,
      error := some "Invalid file type. Only PDF, PNG, JPEG, JPG, and Excel files are allowed." }
  else
    { stored := some f, inputCleared := false, error := none }

/-! ## C1: latest-per-writ reduction (Proceedings.tsx lines 183-207)

The upcomingHearings memo folds the fetched proceedings into a JS Map
keyed by writ id.  For each proceeding it extracts the writ id (the fir
field itself when it is a string, otherwise the _id of the embedded
object; a falsy id skips the entry), reads the current representative and
replaces it when the new sequence is strictly greater (a missing sequence
counts as -Infinity), or when the sequences are equal and the new
createdAt is strictly later (a missing createdAt counts as epoch 0). -/

/-- Writ id extraction of the reduction: the fir string itself, or the
_id of the embedded writ; an empty (falsy) id yields none and the entry
is skipped. -/
def firIdOf (p : Proceeding) : Option String :=
  match p.fir with
  | .byId s => if s = "" then none else some s
  | .emb f => if f._id = "" then none else some f._id

/-- Strict greater-than on sequence values where a missing sequence plays
the role of -Infinity (so some a > none for every a, and none > none is
false). -/
def seqGtB : Option Int → Option Int → Bool
  | some a, some b => decide (b < a)
  | some _, none => true
  | none, _ => false

/-- The createdAt timestamp with the code fallback new Date(x || 0). -/
def createdMs (p : Proceeding) : Nat := p.createdAt.getD 0

/-- Lookup in the association-list model of the JS Map. -/
def mapGet (m : List (String × Proceeding)) (k : String) : Option Proceeding :=
  match m with
  | [] => none
  | (k', p') :: rest => if k' = k then some p' else mapGet rest k

/-- Insertion-order-preserving set of the JS Map: replace the entry in
place when the key is present, append otherwise. -/
def mapSet (m : List (String × Proceeding)) (k : String) (p : Proceeding) :
    List (String × Proceeding) :=
  match m with
  | [] => [(k, p)]
  | (k', p') :: rest => if k' = k then (k, p) :: rest else (k', p') :: mapSet rest k p

/-- One iteration of the proceedings.forEach body of the reduction. -/
def step (m : List (String × Proceeding)) (p : Proceeding) :
    List (String × Proceeding) :=
  match firIdOf p with
  | none => m
  | some k =>
    match mapGet m k with
    | none => mapSet m k p
    | some e =>
      if seqGtB p.sequence e.sequence then mapSet m k p
      else if p.sequence = e.sequence then
        (if createdMs e < createdMs p then mapSet m k p else m)
      else m

/-- The latestByFIR map of the reduction, as an insertion-ordered
association list. -/
def latestByFIR (ps : List Proceeding) : List (String × Proceeding) :=
  ps.foldl step []

/-- Lexicographic comparison selected by the reduction: p precedes (or
ties) r when r has a strictly greater sequence, or equal sequence and a
createdAt at least as late. -/
def keyLe (p r : Proceeding) : Prop :=
  seqGtB r.sequence p.sequence = true
  ∨ (p.sequence = r.sequence ∧ createdMs p ≤ createdMs r)

/-- Invariant of the forEach fold: keys are distinct; every entry of the
map is an already seen proceeding with that writ id, lexicographically
maximal among the seen proceedings of that writ; and every seen writ id
has an entry. -/
def RepInv (seen : List Proceeding) (m : List (String × Proceeding)) : Prop :=
  ((m.map Prod.fst).Nodup)
  ∧ (∀ k r, (k, r) ∈ m → r ∈ seen ∧ firIdOf r = some k ∧
      ∀ p ∈ seen, firIdOf p = some k → keyLe p r)
  ∧ (∀ p ∈ seen, ∀ k, firIdOf p = some k → k ∈ m.map Prod.fst)

/-- The two proceedings of the worked spec example: writ W1 with a
sequence-1 proceeding (hearing 2024-01-10, created earlier) and a
sequence-3 proceeding (hearing 2024-03-01, created later). -/
def pSeq1 : Proceeding :=
  { _id := "p1", fir := .byId "W1", sequence := some 1, summary := none,
    hearingDetails := some ⟨some 1704844800000, none, none⟩,
    createdAt := some 1704000000000 }

def pSeq3 : Proceeding :=
  { _id := "p2", fir := .byId "W1", sequence := some 3, summary := none,
    hearingDetails := some ⟨some 1709251200000, none, none⟩,
    createdAt := some 1709000000000 }

/-! ## C2: upcoming-hearings queue (Proceedings.tsx lines 209-221 and 453-458)

From the latest-per-writ representatives the memo keeps the entries whose
hearing date is present and not before now, sorts them ascending by
hearing date (a stable comparator sort, modelled by insertion sort) and
takes the first ten.  The render flags an entry urgent when getDaysUntil,
the ceiling of the millisecond difference divided by one day, is at most
seven. -/

/-- The optional hearing timestamp p.hearingDetails?.dateOfHearing. -/
def hearingMs (p : Proceeding) : Option Nat :=
  p.hearingDetails.bind (fun h => h.dateOfHearing)

/-- The filter of the queue: a present hearing date that is now or later. -/
def keepUpcoming (now : Nat) (p : Proceeding) : Bool :=
  match hearingMs p with
  | some t => decide (now ≤ t)
  | none => false

/-- Sort key of the queue comparator, new Date(x || 0).getTime(). -/
def hearingSortKey (p : Proceeding) : Nat := (hearingMs p).getD 0

/-- Ascending comparator of the queue. -/
def hearingLe (a b : Proceeding) : Prop := hearingSortKey a ≤ hearingSortKey b

instance : DecidableRel hearingLe := fun _ _ => Nat.decLe _ _

instance : IsTotal Proceeding hearingLe := ⟨fun _ _ => Nat.le_total _ _⟩

instance : IsTrans Proceeding hearingLe := ⟨fun _ _ _ => Nat.le_trans⟩

/-- The upcomingHearings memo: latest-per-writ values, filtered to
today-or-future hearings, sorted ascending by hearing date, first ten. -/
def upcomingHearings (now : Nat) (ps : List Proceeding) : List Proceeding :=
  (List.insertionSort hearingLe
    (((latestByFIR ps).map Prod.snd).filter (keepUpcoming now))).take 10

/-- getDaysUntil: the ceiling of the millisecond difference between the
hearing date and now, divided by the milliseconds of one day. -/
def getDaysUntil (now t : Nat) : Int :=
  ((t : Int) - (now : Int) + (86400000 - 1)) / 86400000

/-- The urgency flag of the render: at most seven days away. -/
def isUrgent (now t : Nat) : Bool := decide (getDaysUntil now t ≤ 7)

/-! ## Proceeding form model (Proceedings.tsx lines 24-65, 172-181, 344-446,
401-442 and 814-827)

The creation form state, the ARGUMENT type-reset effect, the payload
assembly and the submission handler. -/

/-- A name/rank/mobile triple of the form. -/
structure PersonDetails where
  name : String
  rank : String
  mobile : String
deriving DecidableEq

/-- One notice-of-motion entry of the form state.  The two fields details
and nextDateOfHearing are optional because the initial literal sets only
details and the reset literal sets only nextDateOfHearing. -/
structure NoticeOfMotionDetails where
  attendanceMode : String
  formatSubmitted : Bool
  formatFilledBy : PersonDetails
  appearingAG : PersonDetails
  attendingOfficer : PersonDetails
  investigatingOfficer : PersonDetails
  details : Option String
  nextDateOfHearing : Option String
  officerDeputedForReply : String
  vettingOfficerDetails : String
  replyFiled : Bool
  replyFilingDate : String
  advocateGeneralName : String
  replyScrutinizedByHC : Bool
deriving DecidableEq

/-- Hearing details of the form (raw input strings). -/
structure HearingDetailsForm where
  dateOfHearing : String
  judgeName : String
  courtNumber : String
deriving DecidableEq

structure ReplyTrackingDetails where
  proceedingInCourt : String
  orderInShort : String
  nextActionablePoint : String
  nextDateOfHearing : String
deriving DecidableEq

structure ArgumentDetails where
  details : String
  nextDateOfHearing : String
deriving DecidableEq

structure DecisionDetails where
  writStatus : String
  remarks : String
  decisionByCourt : String
  dateOfDecision : String
deriving DecidableEq

/-- The four proceeding types of src/types.ts. -/
inductive ProceedingType where
  | NOTICE_OF_MOTION
  | TO_FILE_REPLY
  | ARGUMENT
  | DECISION
deriving DecidableEq

/-- The formData state of the Proceedings page. -/
structure FormState where
  fir : String
  type : ProceedingType
  summary : String
  details : String
  hearingDetails : HearingDetailsForm
  noticeOfMotion : List NoticeOfMotionDetails
  replyTracking : ReplyTrackingDetails
  argumentDetails : ArgumentDetails
  decisionDetails : DecisionDetails
deriving DecidableEq

def blankPerson : PersonDetails := { name := "", rank := "", mobile := "" }

/-- The notice-of-motion entry of the initial useState literal
(Proceedings.tsx lines 34-48): details is the empty string and
nextDateOfHearing is absent. -/
def initialNomEntry : NoticeOfMotionDetails :=
  { attendanceMode := "BY_FORMAT", formatSubmitted := false,
    formatFilledBy := blankPerson, appearingAG := blankPerson,
    attendingOfficer := blankPerson, investigatingOfficer := blankPerson,
    details := some "", nextDateOfHearing := none,
    officerDeputedForReply := "", vettingOfficerDetails := "",
    replyFiled := false, replyFilingDate := "", advocateGeneralName := "",
    replyScrutinizedByHC := false }

/-- The notice-of-motion entry of the post-success reset literal
(Proceedings.tsx lines 411-425): nextDateOfHearing is the empty string
and details is absent. -/
def resetNomEntry : NoticeOfMotionDetails :=
  { attendanceMode := "BY_FORMAT", formatSubmitted := false,
    formatFilledBy := blankPerson, appearingAG := blankPerson,
    attendingOfficer := blankPerson, investigatingOfficer := blankPerson,
    details := none, nextDateOfHearing := some "",
    officerDeputedForReply := "", vettingOfficerDetails := "",
    replyFiled := false, replyFilingDate := "", advocateGeneralName := "",
    replyScrutinizedByHC := false }

def blankFormCommon (entry : NoticeOfMotionDetails) : FormState :=
  { fir := "", type := .NOTICE_OF_MOTION, summary := "", details := "",
    hearingDetails := { dateOfHearing := "", judgeName := "", courtNumber := "" },
    noticeOfMotion := [entry],
    replyTracking := { proceedingInCourt := "", orderInShort := "",
                       nextActionablePoint := "", nextDateOfHearing := "" },
    argumentDetails := { details := "", nextDateOfHearing := "" },
    decisionDetails := { writStatus := "PENDING", remarks := "",
                         decisionByCourt := "", dateOfDecision := "" } }

/-- The initial formData literal (Proceedings.tsx lines 24-65). -/
def initialFormData : FormState := blankFormCommon initialNomEntry

/-- The formData literal written back after a successful submission
(Proceedings.tsx lines 401-442). -/
def resetFormData : FormState := blankFormCommon resetNomEntry

/-! ## C4: ARGUMENT only for quashing writs (lines 172-181 and 814-827) -/

/-- The find over a FIR list by id used by the page. -/
def findFir (l : List FIRRec) (id : String) : Option FIRRec :=
  l.find? (fun f => decide (f._id = id))

/-- The selected FIR resolution firs.find(...) || firSearchResults.find(...). -/
def lookupSelectedFir (firs results : List FIRRec) (id : String) : Option FIRRec :=
  (findFir firs id).orElse (fun _ => findFir results id)

/-- Branch of the type-reset effect on the resolved selection: an
unresolvable selection or a non-quashing writType forces the fallback
type NOTICE_OF_MOTION (selectedFir?.writType !== QUASHING). -/
def applySelected (fd : FormState) : Option FIRRec → FormState
  | some f =>
    if f.writType ≠ "QUASHING" then { fd with type := .NOTICE_OF_MOTION } else fd
  | none => { fd with type := .NOTICE_OF_MOTION }

/-- The type-reset effect (Proceedings.tsx lines 172-181): when the type
is ARGUMENT and a writ is selected whose resolved writType is not
QUASHING (or which cannot be resolved at all), force the type back to
NOTICE_OF_MOTION. -/
def typeResetEffect (firs results : List FIRRec) (fd : FormState) : FormState :=
  if fd.type = ProceedingType.ARGUMENT ∧ fd.fir ≠ "" then
    applySelected fd (lookupSelectedFir firs results fd.fir)
  else fd

def PROCEEDING_TYPE_OPTIONS : List ProceedingType :=
  [.NOTICE_OF_MOTION, .TO_FILE_REPLY, .ARGUMENT, .DECISION]

/-- Truth value of selectedFir?.writType === QUASHING. -/
def quashFlag : Option FIRRec → Bool
  | some f => decide (f.writType = "QUASHING")
  | none => false

/-- The isQuashing flag of the type dropdown (lines 814-819). -/
def isQuashingSel (firs results : List FIRRec) (firId : String) : Bool :=
  quashFlag (if firId ≠ "" then lookupSelectedFir firs results firId else none)

/-- The option filter of the type dropdown (lines 820-822). -/
def proceedingTypeOptions (firs results : List FIRRec) (firId : String) :
    List ProceedingType :=
  PROCEEDING_TYPE_OPTIONS.filter
    (fun t => decide (t ≠ ProceedingType.ARGUMENT) || isQuashingSel firs results firId)

/-! ## C5: payload assembly (Proceedings.tsx lines 372-395)

The payload always carries fir, type, summary/details (empty collapsed to
undefined) and the hearing details; the type then selects which
type-specific sub-objects are attached.  The createdBy delete is a no-op
here because the embedding never sets it. -/

/-- The noticeOfMotion payload value: the single entry itself when the
list has exactly one element, the whole array otherwise. -/
inductive NomPayload where
  | single (e : NoticeOfMotionDetails)
  | multiple (es : List NoticeOfMotionDetails)
deriving DecidableEq

def nomValue (es : List NoticeOfMotionDetails) : NomPayload :=
  match es with
  | [e] => .single e
  | es => .multiple es

/-- The outgoing creation payload (CreateProceedingInput). -/
structure CreateProceedingInput where
  fir : String
  type : ProceedingType
  summary : Option String
  details : Option String
  hearingDetails : HearingDetailsForm
  noticeOfMotion : Option NomPayload
  replyTracking : Option ReplyTrackingDetails
  argumentDetails : Option ArgumentDetails
  decisionDetails : Option DecisionDetails
deriving DecidableEq

/-- The x || undefined collapse of an empty form string. -/
def strOrUndefined (s : String) : Option String :=
  if s = "" then none else some s

/-- The payload assembly of handleSubmit (lines 372-395). -/
def buildPayload (fd : FormState) : CreateProceedingInput :=
  let base : CreateProceedingInput :=
    { fir := fd.fir, type := fd.type, summary := strOrUndefined fd.summary,
      details := strOrUndefined fd.details, hearingDetails := fd.hearingDetails,
      noticeOfMotion := none, replyTracking := none, argumentDetails := none,
      decisionDetails := none }
  match fd.type with
  | .NOTICE_OF_MOTION =>
    { base with noticeOfMotion := some (nomValue fd.noticeOfMotion) }
  | .TO_FILE_REPLY =>
    { base with noticeOfMotion := some (nomValue fd.noticeOfMotion),
                replyTracking := some fd.replyTracking }
  | .ARGUMENT => { base with argumentDetails := some fd.argumentDetails }
  | .DECISION => { base with decisionDetails := some fd.decisionDetails }

/-! ## C9: submission contract (Proceedings.tsx lines 344-446) -/

/-- The page state touched by handleSubmit. -/
structure PageState where
  proceedings : List Proceeding
  formData : FormState
  orderOfProceedingFile : Option FileRec
  error : Option String
  showCreateForm : Bool
deriving DecidableEq

/-- Outcome of a submission: the new page state and whether the remote
createProceeding call was issued. -/
structure SubmitOutcome where
  state : PageState
  networkCalled : Bool
deriving DecidableEq

/-- Truthiness of user?.token. -/
def tokenPresent (token : Option String) : Bool :=
  match token with
  | some t => decide (t ≠ "")
  | none => false

/-- The createProceeding call and the two setState paths around it:
success prepends the new proceeding, closes the form, drops the file and
writes the reset literal; failure records only the error message. -/
def submitCall (remote : CreateProceedingInput → Option FileRec → Except String Proceeding)
    (st : PageState) : SubmitOutcome :=
  match remote (buildPayload st.formData) st.orderOfProceedingFile with
  | .ok newP =>
    { state := { proceedings := newP :: st.proceedings, formData := resetFormData,
                 orderOfProceedingFile := none, error := none,
                 showCreateForm := false },
      networkCalled := true }
  | .error msg =>
    { state := { st with error := some msg }, networkCalled := true }

/-- The attachment validation inside handleSubmit (lines 359-370): when a
file is present, an oversized or wrongly typed file blocks the call with
an error; otherwise the call proceeds. -/
def fileGate (remote : CreateProceedingInput → Option FileRec → Except String Proceeding)
    (st : PageState) : Option FileRec → SubmitOutcome
  | some f =>
    if 250 * 1024 < f.size then
      { state := { st with error := some "File size exceeds 250 KB limit" },
        networkCalled := false }
    else if ¬ (f.mime ∈ allowedTypes) then
      let msg := "Invalid file type. Only PDF, PNG, JPEG, JPG, and Excel files are allowed."
      { state := { st with error := some msg }, networkCalled := false }
    else submitCall remote st
  | none => submitCall remote st

/-- handleSubmit (lines 344-446): require a writ id and a hearing date,
require an auth token, validate an attached file, then issue the call. -/
def handleSubmit (token : Option String)
    (remote : CreateProceedingInput → Option FileRec → Except String Proceeding)
    (st : PageState) : SubmitOutcome :=
  if st.formData.fir = "" ∨ st.formData.hearingDetails.dateOfHearing = "" then
    { state := { st with
        error := some "Please fill in required fields (FIR and Hearing Date)" },
      networkCalled := false }
  else if ¬ tokenPresent token = true then
    { state := { st with error := some "Authentication required" },
      networkCalled := false }
  else fileGate remote st st.orderOfProceedingFile

/-- Truth value of the attachment validation applied to the optional
file: true when no file is attached or the file passes both checks. -/
def fileValid : Option FileRec → Bool
  | some f => decide (f.size ≤ 250 * 1024) && decide (f.mime ∈ allowedTypes)
  | none => true

def readyHearing : HearingDetailsForm :=
  { dateOfHearing := "2024-05-01", judgeName := "J", courtNumber := "3" }

/-- A form state that passes the local required-field checks: a selected
writ F1 and a hearing date. -/
def readyFormData : FormState :=
  { initialFormData with fir := "F1", hearingDetails := readyHearing }

/-- A page state ready to submit. -/
def stReady : PageState :=
  { proceedings := [], formData := readyFormData, orderOfProceedingFile := none,
    error := none, showCreateForm := true }

/-- The initial notice-of-motion entry with the two divergent blank
fields flipped to their post-reset representations. -/
def resetNomEntryFromInitial : NoticeOfMotionDetails :=
  { initialNomEntry with details := none, nextDateOfHearing := some "" }

/-- A remote that accepts the creation and returns the sequence-1 record. -/
def remoteOk : CreateProceedingInput → Option FileRec → Except String Proceeding :=
  fun _ _ => .ok pSeq1

/-- A remote that rejects the creation with a business message. -/
def remoteErr : CreateProceedingInput → Option FileRec → Except String Proceeding :=
  fun _ _ => .error "Duplicate case number"

/-! ## C6: the HTTP request wrapper (api client, request at lines
1808-1895 and handleAuthError at lines 1795-1806 of the bundled source)

The wrapper fails fast with an authentication error (and a session
clear/redirect) when a protected path is called without a token; after
the fetch it parses the body, maps 401/403 HTTP statuses (and, on
otherwise successful object bodies, an embedded non-200 status field) to
thrown errors, clearing the session and redirecting except for /auth/
endpoints; any non-2xx status or unparsable body throws a message. -/

/-- The parsed JSON body as far as the wrapper inspects it: an array, an
object with its optional numeric status and message fields, or any other
JSON value. -/
inductive BodyData where
  | arr : BodyData
  | obj (status : Option Nat) (message : Option String) : BodyData
  | other : BodyData
deriving DecidableEq

/-- Truthy message extraction data?.message (empty string is falsy). -/
def bodyMessage : BodyData → Option String
  | .obj _ (some s) => if s = "" then none else some s
  | _ => none

/-- The message fallback pattern data?.message || fallback. -/
def msgOr (data : BodyData) (fallback : String) : String :=
  (bodyMessage data).getD fallback

/-- response.ok of the Fetch API: a 2xx status. -/
def statusOk (status : Nat) : Bool := decide (200 ≤ status) && decide (status ≤ 299)

/-- A 401 Unauthorized or 403 Forbidden status value. -/
def isAuthStatus (s : Nat) : Bool := decide (s = 401) || decide (s = 403)

/-- path.startsWith of the /auth/ prefix. -/
def isAuthEP (path : String) : Bool := "/auth/".data.isPrefixOf path.data

/-- The redirect guard of handleAuthError: redirect unless the window is
already on the login or signup view. -/
def redirectsFrom (currentPath : String) : Bool :=
  decide (currentPath ≠ "/login") && decide (currentPath ≠ "/signup")

/-- Request failure fallback message for a status code. -/
def statusFailMsg (s : Nat) : String := "Request failed with status " ++ toString s

/-- The 401/403 message selection of the wrapper (the || binds before the
ternary, so any truthy body message or a 401 yields the expired-session
text). -/
def authErrMsg (data : BodyData) (status : Nat) : String :=
  if (bodyMessage data).isSome ∨ status = 401 then
    "Your session has expired. Please login again."
  else "Access forbidden. Please login again."

instance : DecidableEq (Except String BodyData) := fun x y =>
  match x, y with
  | .ok a, .ok b => decidable_of_iff (a = b) (by simp)
  | .error a, .error b => decidable_of_iff (a = b) (by simp)
  | .ok _, .error _ => isFalse (by simp)
  | .error _, .ok _ => isFalse (by simp)

/-- The observable effects of one request call: the returned body or the
thrown message, whether the fetch was issued, and whether handleAuthError
cleared the session and redirected to the login view. -/
structure RequestEffects where
  result : Except String BodyData
  fetched : Bool
  sessionCleared : Bool
  redirected : Bool
deriving DecidableEq

/-- Effects of a successful return of the parsed body. -/
def okEffects (data : BodyData) : RequestEffects :=
  { result := .ok data, fetched := true, sessionCleared := false,
    redirected := false }

/-- The embedded status-field check on an otherwise successful response:
an object body with a numeric status other than 200 throws (clearing the
session for embedded 401/403 on protected paths); anything else is
returned as the result. -/
def embeddedStatusCheck (authEndpoint : Bool) (currentPath : String) :
    BodyData → RequestEffects
  | .obj (some s) m =>
    if s ≠ 200 then
      { result := .error (msgOr (BodyData.obj (some s) m) (statusFailMsg s)),
        fetched := true, sessionCleared := !authEndpoint && isAuthStatus s,
        redirected := (!authEndpoint && isAuthStatus s) && redirectsFrom currentPath }
    else okEffects (BodyData.obj (some s) m)
  | .obj none m => okEffects (BodyData.obj none m)
  | .arr => okEffects .arr
  | .other => okEffects .other

/-- The request wrapper.  The fetch response is modelled by its HTTP
status and its parsed body (none when response.json() throws). -/
def request (token : Option String) (currentPath path : String)
    (status : Nat) (body : Option BodyData) : RequestEffects :=
  if !(isAuthEP path) && !(tokenPresent token) then
    { result := .error "Authentication required. Please login again.",
      fetched := false, sessionCleared := true,
      redirected := redirectsFrom currentPath }
  else
    match body with
    | none =>
      { result := .error "Unable to parse server response", fetched := true,
        sessionCleared := !(isAuthEP path) && isAuthStatus status,
        redirected := (!(isAuthEP path) && isAuthStatus status)
          && redirectsFrom currentPath }
    | some data =>
      if !(isAuthEP path) && isAuthStatus status then
        { result := .error (authErrMsg data status), fetched := true,
          sessionCleared := true, redirected := redirectsFrom currentPath }
      else if !(statusOk status) then
        { result := .error (msgOr data (statusFailMsg status)), fetched := true,
          sessionCleared := false, redirected := false }
      else embeddedStatusCheck (isAuthEP path) currentPath data

/-! ## C7: draft-exclusion filter (Proceedings.tsx lines 107-127 and
155-159)

During load every fetched writ is probed for a draft proceeding: on a
draft the writ id enters the draft set and the writ is excluded from the
picker list; on no draft, or on a probe error (the catch treats it as no
draft), the writ is kept.  The search effect filters the server search
results against the draft set. -/

/-- Outcome of the per-writ draft probe fetchDraftProceedingByFIR: a
draft exists, no draft exists, or the lookup failed. -/
inductive ProbeOutcome where
  | found
  | notFound
  | failed
deriving DecidableEq

/-- The picker list after the load effect: writs whose probe did not
return a draft (including failed probes). -/
def firsWithoutDrafts (probe : String → ProbeOutcome) (firs : List FIRRec) :
    List FIRRec :=
  firs.filter (fun f => decide (probe f._id ≠ ProbeOutcome.found))

/-- The firsWithDrafts set, as the list of writ ids whose probe returned
a draft. -/
def draftIds (probe : String → ProbeOutcome) (firs : List FIRRec) : List String :=
  (firs.filter (fun f => decide (probe f._id = ProbeOutcome.found))).map
    (fun f => f._id)

/-- The search effect filter (lines 157-159): drop search results whose
id is in the draft set. -/
def filterSearchResults (probe : String → ProbeOutcome)
    (firs results : List FIRRec) : List FIRRec :=
  results.filter (fun f => decide (f._id ∉ draftIds probe firs))

/-! ## C10: free-text search fields (Proceedings.tsx lines 226-238)

The search filter lowercases the term and matches it against the summary,
the judge name, the court number, and, only when the proceeding embeds
its writ object (typeof p.fir is object), the writ number and the
petitioner name. -/

/-- Case-insensitive substring test a.toLowerCase().includes(term), on
the underlying character lists. -/
def lowerIncludes (s term : String) : Bool :=
  decide ((term.data.map Char.toLower) <:+: (s.data.map Char.toLower))

/-- The optional-chaining variant x?.toLowerCase().includes(term). -/
def optLowerIncludes (s : Option String) (term : String) : Bool :=
  match s with
  | some v => lowerIncludes v term
  | none => false

/-- Writ-number clause fir?.firNumber match: only an embedded writ
object participates. -/
def firNumberMatch (term : String) : FirRef → Bool
  | .emb f => lowerIncludes f.firNumber term
  | .byId _ => false

/-- Petitioner-name clause fir?.petitionerName match: only an embedded
writ object participates. -/
def petitionerMatch (term : String) : FirRef → Bool
  | .emb f => lowerIncludes f.petitionerName term
  | .byId _ => false

/-- The search predicate of filteredProceedings (lines 228-237). -/
def matchesSearch (term : String) (p : Proceeding) : Bool :=
  optLowerIncludes p.summary term
  || optLowerIncludes (p.hearingDetails.bind (fun h => h.judgeName)) term
  || optLowerIncludes (p.hearingDetails.bind (fun h => h.courtNumber)) term
  || firNumberMatch term p.fir
  || petitionerMatch term p.fir

/-- An id-only proceeding of writ W9 whose petitioner is John Doe on the
server side: the client record carries only the id string. -/
def pIdOnly : Proceeding :=
  { _id := "p9", fir := .byId "W9", sequence := some 1, summary := none,
    hearingDetails := some ⟨some 100, some "Justice K", some "7"⟩,
    createdAt := some 5 }

/-! ## C8: dashboard aggregation (Dashboard source, cityBars at lines
1454-1467 and the pie percent at lines 1496-1510 of part_001)

The cityBars memo maps the fetched per-branch collection in its fetched
order: no sort is applied.  Each bar carries the raw count, a width value
rounded from the count against the maximum, a percent rounded from the
count against the total, and a palette colour cycled by index.  The pie
legend percent is the count rounded against the sum of the status
counts. -/

/-- A per-branch entry of the fetched city graph. -/
structure FIRCityBreakdown where
  branch : String
  count : Nat
deriving DecidableEq

structure FIRStatusCount where
  status : String
  count : Nat
deriving DecidableEq

def CITY_COLOR_PALETTE : List String :=
  ["#4f46e5", "#16a34a", "#dc2626", "#0ea5e9", "#f97316", "#a855f7",
   "#059669", "#eab308"]

/-- Math.round((c / d) * 100) for natural c and positive d: half-up
rounding realised as floor of (200 c + d) / (2 d). -/
def jsRoundRatio100 (c d : Nat) : Nat := (200 * c + d) / (2 * d)

/-- One produced bar of the branch breakdown. -/
structure CityBar where
  label : String
  value : Nat
  count : Nat
  percent : Nat
  color : String
deriving DecidableEq

/-- The element construction of the cityBars map at index i. -/
def cityBar (total maxC i : Nat) (c : FIRCityBreakdown) : CityBar :=
  { label := c.branch,
    value := if 0 < maxC then jsRoundRatio100 c.count maxC else 0,
    count := c.count,
    percent := if 0 < total then jsRoundRatio100 c.count total else 0,
    color := (CITY_COLOR_PALETTE.getD (i % CITY_COLOR_PALETTE.length) "") }

def cityBarsGo (total maxC : Nat) : Nat → List FIRCityBreakdown → List CityBar
  | _, [] => []
  | i, c :: rest => cityBar total maxC i c :: cityBarsGo total maxC (i + 1) rest

/-- The cityBars memo: empty input yields no bars, otherwise the fetched
collection is mapped in order with its total and its maximum (floored at
one). -/
def cityBars (g : List FIRCityBreakdown) : List CityBar :=
  if g.length = 0 then []
  else
    cityBarsGo ((g.map (fun c => c.count)).sum)
      ((g.map (fun c => c.count)).foldr max 1) 0 g

/-- The statusTotals sum of the dashboard (line 1415). -/
def statusTotals (counts : List FIRStatusCount) : Nat :=
  (counts.map (fun c => c.count)).sum

/-- The pie legend percent of one segment (lines 1498-1499). -/
def pieSegmentPercent (totals count : Nat) : Nat :=
  if 0 < totals then jsRoundRatio100 count totals else 0

/-- A fetched city graph that is not in descending count order. -/
def gUnsorted : List FIRCityBreakdown := [⟨"A", 1⟩, ⟨"B", 5⟩]

/-! ## Theorems -/

/-- C3: a file is accepted by the attachment validation exactly when its
size is at most 250 KiB and its MIME type is in the allowed list (PDF,
PNG, JPEG/JPG, XLSX, legacy XLS); on violation an error is surfaced, the
file input is cleared and the file is not stored; a submission carrying
a violating file is blocked before the remote call is issued. -/
theorem attachment_validation_spec (prev : Option FileRec) (f : FileRec) :
    (f.size ≤ 250 * 1024 ∧ f.mime ∈ allowedTypes →
      orderFileOnChange prev f =
        { stored := some f, inputCleared := false, error := none })
    ∧ (250 * 1024 < f.size ∨ f.mime ∉ allowedTypes →
      (orderFileOnChange prev f).stored = prev
      ∧ (orderFileOnChange prev f).inputCleared = true
      ∧ (orderFileOnChange prev f).error.isSome = true)
    ∧ (∀ token remote st, 250 * 1024 < f.size ∨ f.mime ∉ allowedTypes →
      st.orderOfProceedingFile = some f →
      (handleSubmit token remote st).networkCalled = false) := by
  refine ⟨?_, ?_, ?_⟩
  · rintro ⟨hsize, hmime⟩
    simp [orderFileOnChange, Nat.not_lt.mpr hsize, hmime]
  · intro hviol
    by_cases hsize : 250 * 1024 < f.size
    · simp [orderFileOnChange, hsize]
    · have hmime : f.mime ∉ allowedTypes := by
        rcases hviol with h | h
        · exact absurd h hsize
        · exact h
      simp [orderFileOnChange, hsize, hmime]
  · intro token remote st hviol hfile
    rw [handleSubmit]
    split
    · rfl
    · split
      · rfl
      · rw [hfile]
        by_cases hsize : 250 * 1024 < f.size
        · simp [fileGate, hsize]
        · have hmime : f.mime ∉ allowedTypes := by
            rcases hviol with h | h
            · exact absurd h hsize
            · exact h
          simp [fileGate, hsize, hmime]

/-- Witness for C3: a 250 KiB PDF is accepted; a 251 KiB PDF and a 250 KiB
docx file are both rejected with an error, a cleared input and no stored
file; a submission carrying the oversized file issues no remote call. -/
theorem attachment_validation_witness :
    (orderFileOnChange none ⟨250 * 1024, "application/pdf"⟩ =
      { stored := some ⟨250 * 1024, "application/pdf"⟩, inputCleared := false, error := none })
    ∧ ((orderFileOnChange none ⟨251 * 1024, "application/pdf"⟩).stored = none
      ∧ (orderFileOnChange none ⟨251 * 1024, "application/pdf"⟩).inputCleared = true
      ∧ (orderFileOnChange none ⟨251 * 1024, "application/pdf"⟩).error.isSome = true)
    ∧ ((orderFileOnChange none
          ⟨250 * 1024,
           "application/vnd.openxmlformats-officedocument.wordprocessingml.document"⟩).stored = none
      ∧ (orderFileOnChange none
          ⟨250 * 1024,
           "application/vnd.openxmlformats-officedocument.wordprocessingml.document"⟩).inputCleared = true
      ∧ (orderFileOnChange none
          ⟨250 * 1024,
           "application/vnd.openxmlformats-officedocument.wordprocessingml.document"⟩).error.isSome = true)
    ∧ (handleSubmit (some "tok") remoteOk
        { stReady with orderOfProceedingFile := some ⟨251 * 1024, "application/pdf"⟩
        }).networkCalled = false :=
  ⟨(attachment_validation_spec none ⟨250 * 1024, "application/pdf"⟩).1 (by decide),
   (attachment_validation_spec none ⟨251 * 1024, "application/pdf"⟩).2.1 (by decide),
   (attachment_validation_spec none
      ⟨250 * 1024,
       "application/vnd.openxmlformats-officedocument.wordprocessingml.document"⟩).2.1 (by decide),
   (attachment_validation_spec none ⟨251 * 1024, "application/pdf"⟩).2.2
      (some "tok") remoteOk
      { stReady with orderOfProceedingFile := some ⟨251 * 1024, "application/pdf"⟩ }
      (by decide) rfl⟩

theorem keyLe_refl (p : Proceeding) : keyLe p p :=
  Or.inr ⟨rfl, Nat.le_refl _⟩

theorem seqGtB_trichotomy (a b : Option Int) :
    seqGtB a b = true ∨ seqGtB b a = true ∨ a = b := by
  match a, b with
  | none, none => simp [seqGtB]
  | none, some y => simp [seqGtB]
  | some x, none => simp [seqGtB]
  | some x, some y =>
    simp only [seqGtB, decide_eq_true_eq, Option.some.injEq]
    omega

theorem seqGtB_trans {a b c : Option Int}
    (h1 : seqGtB b a = true) (h2 : seqGtB c b = true) : seqGtB c a = true := by
  match a, b, c with
  | _, none, _ => simp [seqGtB] at h1
  | _, some y, none => simp [seqGtB] at h2
  | none, some y, some z => simp [seqGtB]
  | some x, some y, some z =>
    simp only [seqGtB, decide_eq_true_eq] at h1 h2 ⊢
    omega

theorem keyLe_of_keyLe_of_gt {q e p : Proceeding} (h1 : keyLe q e)
    (h2 : seqGtB p.sequence e.sequence = true) : keyLe q p := by
  rcases h1 with h | ⟨hseq, _⟩
  · exact Or.inl (seqGtB_trans h h2)
  · exact Or.inl (hseq ▸ h2)

theorem keyLe_of_keyLe_of_eq_of_le {q e p : Proceeding} (h1 : keyLe q e)
    (hseq : p.sequence = e.sequence) (hcr : createdMs e ≤ createdMs p) :
    keyLe q p := by
  rcases h1 with h | ⟨hq, hc⟩
  · exact Or.inl (hseq ▸ h)
  · exact Or.inr ⟨hq.trans hseq.symm, hc.trans hcr⟩

theorem keys_mapSet (m : List (String × Proceeding)) (k : String) (p : Proceeding) :
    (mapSet m k p).map Prod.fst =
      if k ∈ m.map Prod.fst then m.map Prod.fst else m.map Prod.fst ++ [k] := by
  induction m with
  | nil => simp [mapSet]
  | cons hd tl ih =>
    obtain ⟨k₀, p₀⟩ := hd
    by_cases hk : k₀ = k
    · simp [mapSet, hk]
    · have hne : ¬ (k = k₀) := fun h => hk h.symm
      simp only [mapSet, if_neg hk, List.map_cons, ih, List.mem_cons, hne, false_or]
      by_cases hmem : k ∈ tl.map Prod.fst
      · simp [hmem]
      · simp [hmem]

theorem mem_keys_mapSet_of_mem {m : List (String × Proceeding)} {k₀ : String}
    (k : String) (p : Proceeding) (h : k₀ ∈ m.map Prod.fst) :
    k₀ ∈ (mapSet m k p).map Prod.fst := by
  rw [keys_mapSet]
  split <;> simp [h]

theorem self_mem_keys_mapSet (m : List (String × Proceeding)) (k : String)
    (p : Proceeding) : k ∈ (mapSet m k p).map Prod.fst := by
  rw [keys_mapSet]
  split
  · assumption
  · simp

theorem nodup_keys_mapSet {m : List (String × Proceeding)} (k : String)
    (p : Proceeding) (h : (m.map Prod.fst).Nodup) :
    ((mapSet m k p).map Prod.fst).Nodup := by
  rw [keys_mapSet]
  split
  · exact h
  · next hk => simp [List.nodup_append, h, hk]

theorem mem_of_mapGet_eq_some {m : List (String × Proceeding)} {k : String}
    {e : Proceeding} (h : mapGet m k = some e) : (k, e) ∈ m := by
  induction m with
  | nil => simp [mapGet] at h
  | cons hd tl ih =>
    obtain ⟨k', p'⟩ := hd
    by_cases hk : k' = k
    · subst hk
      simp [mapGet] at h
      simp [h]
    · simp [mapGet, hk] at h
      exact List.mem_cons_of_mem _ (ih h)

theorem mapGet_eq_none_iff {m : List (String × Proceeding)} {k : String} :
    mapGet m k = none ↔ k ∉ m.map Prod.fst := by
  induction m with
  | nil => simp [mapGet]
  | cons hd tl ih =>
    obtain ⟨k', p'⟩ := hd
    by_cases hk : k' = k
    · subst hk
      simp [mapGet]
    · simp [mapGet, hk, ih, Ne.symm hk]

theorem mem_mapSet {m : List (String × Proceeding)} {k' k : String}
    {r p : Proceeding} (hnd : (m.map Prod.fst).Nodup) :
    (k', r) ∈ mapSet m k p ↔
      ((k' = k ∧ r = p) ∨ ((k', r) ∈ m ∧ k' ≠ k)) := by
  induction m with
  | nil =>
    simp only [mapSet, List.mem_singleton, Prod.mk.injEq, List.not_mem_nil,
      false_and, or_false]
  | cons hd tl ih =>
    obtain ⟨k₀, p₀⟩ := hd
    simp only [List.map_cons, List.nodup_cons] at hnd
    obtain ⟨hk₀, hndtl⟩ := hnd
    by_cases hk : k₀ = k
    · simp only [mapSet, if_pos hk, List.mem_cons, Prod.mk.injEq]
      constructor
      · rintro (⟨h1, h2⟩ | hmem)
        · exact Or.inl ⟨h1, h2⟩
        · refine Or.inr ⟨Or.inr hmem, fun he => hk₀ ?_⟩
          have hmk : k' ∈ List.map Prod.fst tl := List.mem_map_of_mem Prod.fst hmem
          rw [he, ← hk] at hmk
          exact hmk
      · rintro (⟨h1, h2⟩ | ⟨(⟨h1, h2⟩ | hmem), hne⟩)
        · exact Or.inl ⟨h1, h2⟩
        · exact absurd (h1.trans hk) hne
        · exact Or.inr hmem
    · simp only [mapSet, if_neg hk, List.mem_cons, Prod.mk.injEq, ih hndtl]
      constructor
      · rintro (⟨h1, h2⟩ | (⟨h1, h2⟩ | ⟨hmem, hne⟩))
        · exact Or.inr ⟨Or.inl ⟨h1, h2⟩, fun he => hk (h1.symm.trans he)⟩
        · exact Or.inl ⟨h1, h2⟩
        · exact Or.inr ⟨Or.inr hmem, hne⟩
      · rintro (⟨h1, h2⟩ | ⟨(⟨h1, h2⟩ | hmem), hne⟩)
        · exact Or.inr (Or.inl ⟨h1, h2⟩)
        · exact Or.inl ⟨h1, h2⟩
        · exact Or.inr (Or.inr ⟨hmem, hne⟩)

theorem mapGet_unique {m : List (String × Proceeding)} {k : String}
    {r e : Proceeding} (hnd : (m.map Prod.fst).Nodup) (hm : (k, r) ∈ m)
    (hget : mapGet m k = some e) : r = e := by
  induction m with
  | nil => simp at hm
  | cons hd tl ih =>
    obtain ⟨k₀, p₀⟩ := hd
    simp only [List.map_cons, List.nodup_cons] at hnd
    obtain ⟨hk₀, hndtl⟩ := hnd
    rcases List.mem_cons.mp hm with heq | hmem
    · have h1 : k = k₀ := congrArg Prod.fst heq
      have h2 : r = p₀ := congrArg Prod.snd heq
      rw [show mapGet ((k₀, p₀) :: tl) k = some p₀ from by simp [mapGet, h1.symm]] at hget
      rw [h2]
      exact Option.some.inj hget
    · have hne : k₀ ≠ k := by
        intro h
        subst h
        exact hk₀ (List.mem_map_of_mem Prod.fst hmem)
      simp only [mapGet, if_neg hne] at hget
      exact ih hndtl hmem hget

/-- A map unchanged by the step keeps the invariant after extending seen
with a proceeding p such that every entry dominates p at its key (or p
carries no key at all). -/
theorem keep_inv {seen : List Proceeding} {m : List (String × Proceeding)}
    {p : Proceeding} (hnd : (m.map Prod.fst).Nodup)
    (hrep : ∀ k r, (k, r) ∈ m → r ∈ seen ∧ firIdOf r = some k ∧
      ∀ q ∈ seen, firIdOf q = some k → keyLe q r)
    (hcov : ∀ q ∈ seen, ∀ k, firIdOf q = some k → k ∈ m.map Prod.fst)
    (hple : ∀ k r, firIdOf p = some k → (k, r) ∈ m → keyLe p r)
    (hpk : ∀ k, firIdOf p = some k → k ∈ m.map Prod.fst) :
    RepInv (seen ++ [p]) m := by
  refine ⟨hnd, ?_, ?_⟩
  · intro k r hm
    obtain ⟨hseen, hid, hmaxo⟩ := hrep k r hm
    refine ⟨List.mem_append_left _ hseen, hid, ?_⟩
    intro q hq hqid
    rcases List.mem_append.mp hq with hq | hq
    · exact hmaxo q hq hqid
    · rw [List.mem_singleton.mp hq] at hqid ⊢
      exact hple k r hqid hm
  · intro q hq k hk
    rcases List.mem_append.mp hq with hq | hq
    · exact hcov q hq k hk
    · rw [List.mem_singleton.mp hq] at hk
      exact hpk k hk

/-- Replacing (or inserting) the entry at the key of p with p itself keeps
the invariant, provided every seen proceeding of that key is dominated by
p. -/
theorem set_inv {seen : List Proceeding} {m : List (String × Proceeding)}
    {p : Proceeding} {k₀ : String} (hnd : (m.map Prod.fst).Nodup)
    (hrep : ∀ k r, (k, r) ∈ m → r ∈ seen ∧ firIdOf r = some k ∧
      ∀ q ∈ seen, firIdOf q = some k → keyLe q r)
    (hcov : ∀ q ∈ seen, ∀ k, firIdOf q = some k → k ∈ m.map Prod.fst)
    (hfid : firIdOf p = some k₀)
    (hqmax : ∀ q ∈ seen, firIdOf q = some k₀ → keyLe q p) :
    RepInv (seen ++ [p]) (mapSet m k₀ p) := by
  refine ⟨nodup_keys_mapSet k₀ p hnd, ?_, ?_⟩
  · intro k r hm
    rcases (mem_mapSet hnd).mp hm with ⟨hkk, hrp⟩ | ⟨hm', hkne⟩
    · subst hkk
      subst hrp
      refine ⟨List.mem_append_right _ (List.mem_singleton_self _), hfid, ?_⟩
      intro q hq hqid
      rcases List.mem_append.mp hq with hq | hq
      · exact hqmax q hq hqid
      · rw [List.mem_singleton.mp hq]
        exact keyLe_refl r
    · obtain ⟨hseen, hid, hmaxo⟩ := hrep k r hm'
      refine ⟨List.mem_append_left _ hseen, hid, ?_⟩
      intro q hq hqid
      rcases List.mem_append.mp hq with hq | hq
      · exact hmaxo q hq hqid
      · rw [List.mem_singleton.mp hq] at hqid
        rw [hfid] at hqid
        exact absurd (Option.some.inj hqid).symm hkne
  · intro q hq k hk
    rcases List.mem_append.mp hq with hq | hq
    · exact mem_keys_mapSet_of_mem k₀ p (hcov q hq k hk)
    · rw [List.mem_singleton.mp hq] at hk
      rw [hfid] at hk
      rw [← Option.some.inj hk]
      exact self_mem_keys_mapSet m k₀ p

theorem step_inv {seen : List Proceeding} {m : List (String × Proceeding)}
    (p : Proceeding) (h : RepInv seen m) : RepInv (seen ++ [p]) (step m p) := by
  obtain ⟨hnd, hrep, hcov⟩ := h
  cases hfid : firIdOf p with
  | none =>
    simp only [step, hfid]
    refine keep_inv hnd hrep hcov ?_ ?_
    · intro k r hk
      rw [hfid] at hk
      cases hk
    · intro k hk
      rw [hfid] at hk
      cases hk
  | some k₀ =>
    simp only [step, hfid]
    cases hget : mapGet m k₀ with
    | none =>
      have hnok : k₀ ∉ m.map Prod.fst := mapGet_eq_none_iff.mp hget
      have hqmax : ∀ q ∈ seen, firIdOf q = some k₀ → keyLe q p := fun q hq hqid =>
        absurd (hcov q hq k₀ hqid) hnok
      exact set_inv hnd hrep hcov hfid hqmax
    | some e =>
      show RepInv (seen ++ [p])
        (if seqGtB p.sequence e.sequence = true then mapSet m k₀ p
         else if p.sequence = e.sequence then
           (if createdMs e < createdMs p then mapSet m k₀ p else m)
         else m)
      have hmemm : (k₀, e) ∈ m := mem_of_mapGet_eq_some hget
      obtain ⟨heseen, heid, hemax⟩ := hrep k₀ e hmemm
      have hkeep : keyLe p e → RepInv (seen ++ [p]) m := by
        intro hpe
        refine keep_inv hnd hrep hcov ?_ ?_
        · intro k r hk hm
          rw [hfid] at hk
          have hkk := Option.some.inj hk
          subst hkk
          rw [mapGet_unique hnd hm hget]
          exact hpe
        · intro k hk
          rw [hfid] at hk
          rw [← Option.some.inj hk]
          exact List.mem_map_of_mem Prod.fst hmemm
      by_cases hgt : seqGtB p.sequence e.sequence = true
      · rw [if_pos hgt]
        exact set_inv hnd hrep hcov hfid fun q hq hqid =>
          keyLe_of_keyLe_of_gt (hemax q hq hqid) hgt
      · rw [if_neg hgt]
        by_cases hseq : p.sequence = e.sequence
        · rw [if_pos hseq]
          by_cases hcr : createdMs e < createdMs p
          · rw [if_pos hcr]
            exact set_inv hnd hrep hcov hfid fun q hq hqid =>
              keyLe_of_keyLe_of_eq_of_le (hemax q hq hqid) hseq (Nat.le_of_lt hcr)
          · rw [if_neg hcr]
            exact hkeep (Or.inr ⟨hseq, Nat.le_of_not_lt hcr⟩)
        · rw [if_neg hseq]
          refine hkeep ?_
          rcases seqGtB_trichotomy p.sequence e.sequence with h | h | h
          · exact absurd h hgt
          · exact Or.inl h
          · exact absurd h hseq

theorem foldl_inv (ps : List Proceeding) :
    ∀ (seen : List Proceeding) (m : List (String × Proceeding)),
      RepInv seen m → RepInv (seen ++ ps) (ps.foldl step m) := by
  induction ps with
  | nil =>
    intro seen m h
    simpa using h
  | cons p ps ih =>
    intro seen m h
    have h1 := ih (seen ++ [p]) (step m p) (step_inv p h)
    simpa using h1

/-- C1: the latest-per-writ reduction groups the fetched proceedings by
writ id and keeps exactly one representative per writ id (the keys are
distinct and every entry carrying a writ id is covered); the
representative of a writ id is one of the fetched proceedings of that
writ, and every fetched proceeding of the same writ either has a strictly
smaller sequence or ties on sequence with a createdAt that is no later
(missing sequence counting as -Infinity, missing createdAt as epoch 0). -/
theorem latest_per_writ_spec (ps : List Proceeding) :
    ((latestByFIR ps).map Prod.fst).Nodup
    ∧ (∀ k r, (k, r) ∈ latestByFIR ps →
        r ∈ ps ∧ firIdOf r = some k ∧ ∀ p ∈ ps, firIdOf p = some k → keyLe p r)
    ∧ (∀ p ∈ ps, ∀ k, firIdOf p = some k → k ∈ (latestByFIR ps).map Prod.fst) := by
  have hbase : RepInv [] [] := by
    refine ⟨List.nodup_nil, ?_, ?_⟩
    · intro k r hm
      simp at hm
    · intro q hq
      simp at hq
  have h := foldl_inv ps [] [] hbase
  simpa [RepInv, latestByFIR] using h

/-- Witness for C1: on the spec example the reduction keeps the
sequence-3 record as the representative of W1, it is one of the inputs,
and the sequence-1 record is dominated by it. -/
theorem latest_per_writ_witness :
    pSeq3 ∈ [pSeq1, pSeq3] ∧ firIdOf pSeq3 = some "W1" ∧ keyLe pSeq1 pSeq3 :=
  have h := (latest_per_writ_spec [pSeq1, pSeq3]).2.1 "W1" pSeq3 (by decide)
  ⟨h.1, h.2.1, h.2.2 pSeq1 (by decide) (by decide)⟩

/-- C2: the upcoming-hearings queue holds at most ten entries (exactly
the filtered count when that is below ten), is sorted ascending by
hearing date, and contains only latest-per-writ representatives whose
hearing date is present and not in the past; an entry is urgent exactly
when its hearing date is at most seven days after now, so a hearing
exactly seven days out is urgent and one eight days out is not. -/
theorem upcoming_hearings_spec (now : Nat) (ps : List Proceeding) :
    (upcomingHearings now ps).length =
      min 10 (((latestByFIR ps).map Prod.snd).filter (keepUpcoming now)).length
    ∧ List.Pairwise hearingLe (upcomingHearings now ps)
    ∧ (∀ p ∈ upcomingHearings now ps,
        p ∈ (latestByFIR ps).map Prod.snd ∧ ∃ t, hearingMs p = some t ∧ now ≤ t)
    ∧ (∀ t, now ≤ t → (isUrgent now t = true ↔ t ≤ now + 7 * 86400000)) := by
  refine ⟨?_, ?_, ?_, ?_⟩
  · rw [upcomingHearings, List.length_take,
      (List.perm_insertionSort hearingLe _).length_eq]
  · exact List.Pairwise.sublist (List.take_sublist _ _)
      (List.sorted_insertionSort hearingLe _)
  · intro p hp
    have hp1 : p ∈ List.insertionSort hearingLe
        (((latestByFIR ps).map Prod.snd).filter (keepUpcoming now)) :=
      List.mem_of_mem_take hp
    have hp2 := (List.perm_insertionSort hearingLe _).mem_iff.mp hp1
    obtain ⟨hmem, hkeep⟩ := List.mem_filter.mp hp2
    refine ⟨hmem, ?_⟩
    cases heq : hearingMs p with
    | none => rw [keepUpcoming, heq] at hkeep; cases hkeep
    | some t =>
      rw [keepUpcoming, heq, decide_eq_true_eq] at hkeep
      exact ⟨t, rfl, hkeep⟩
  · intro t _
    rw [isUrgent, decide_eq_true_eq, getDaysUntil]
    omega

/-- Witness for C2: on the spec example with now at epoch 0, the
sequence-3 record is a latest representative with a future hearing; a
hearing exactly seven days out is urgent and one eight days out is not. -/
theorem upcoming_hearings_witness :
    (pSeq3 ∈ (latestByFIR [pSeq1, pSeq3]).map Prod.snd
      ∧ ∃ t, hearingMs pSeq3 = some t ∧ 0 ≤ t)
    ∧ isUrgent 0 604800000 = true
    ∧ isUrgent 0 691200000 = false :=
  have h := upcoming_hearings_spec 0 [pSeq1, pSeq3]
  ⟨h.2.2.1 pSeq3 (by decide),
   (h.2.2.2 604800000 (by decide)).mpr (by decide),
   Bool.eq_false_iff.mpr (fun hb =>
     absurd ((h.2.2.2 691200000 (by decide)).mp hb) (by decide))⟩

theorem applySelected_fir (fd : FormState) (sel : Option FIRRec) :
    (applySelected fd sel).fir = fd.fir := by
  cases sel with
  | none => rfl
  | some f =>
    rw [applySelected]
    split <;> rfl

theorem typeResetEffect_fir (firs results : List FIRRec) (fd : FormState) :
    (typeResetEffect firs results fd).fir = fd.fir := by
  rw [typeResetEffect]
  split
  · exact applySelected_fir fd _
  · rfl

theorem isQuashingSel_eq_true_iff (firs results : List FIRRec) (id : String) :
    isQuashingSel firs results id = true ↔
      id ≠ "" ∧ ∃ f, lookupSelectedFir firs results id = some f
        ∧ f.writType = "QUASHING" := by
  rw [isQuashingSel]
  by_cases hid : id = ""
  · subst hid
    simp [quashFlag]
  · rw [if_pos hid]
    cases hsel : lookupSelectedFir firs results id with
    | none => simp [quashFlag, hid]
    | some f => simp [quashFlag, hid]

theorem argument_mem_options_iff (firs results : List FIRRec) (id : String) :
    ProceedingType.ARGUMENT ∈ proceedingTypeOptions firs results id ↔
      isQuashingSel firs results id = true := by
  have hd : decide (ProceedingType.ARGUMENT ≠ ProceedingType.ARGUMENT) = false := by
    decide
  rw [proceedingTypeOptions, List.mem_filter, hd, Bool.false_or]
  simp [show ProceedingType.ARGUMENT ∈ PROCEEDING_TYPE_OPTIONS from by decide]

/-- C4: after the type-reset effect runs, a state with type ARGUMENT and
a selected writ resolves that writ to one whose writType is QUASHING;
selecting a non-quashing (or unresolvable) writ while the type is
ARGUMENT forces the type back to NOTICE_OF_MOTION; and the ARGUMENT
option is offered exactly when the selected writ resolves to a quashing
writ. -/
theorem argument_requires_quashing_spec (firs results : List FIRRec) (fd : FormState) :
    ((typeResetEffect firs results fd).type = ProceedingType.ARGUMENT →
      (typeResetEffect firs results fd).fir ≠ "" →
      ∃ f, lookupSelectedFir firs results fd.fir = some f ∧ f.writType = "QUASHING")
    ∧ (∀ f, fd.type = ProceedingType.ARGUMENT → fd.fir ≠ "" →
        lookupSelectedFir firs results fd.fir = some f → f.writType ≠ "QUASHING" →
        (typeResetEffect firs results fd).type = ProceedingType.NOTICE_OF_MOTION)
    ∧ (fd.type = ProceedingType.ARGUMENT → fd.fir ≠ "" →
        lookupSelectedFir firs results fd.fir = none →
        (typeResetEffect firs results fd).type = ProceedingType.NOTICE_OF_MOTION)
    ∧ (∀ id, ProceedingType.ARGUMENT ∈ proceedingTypeOptions firs results id ↔
        (id ≠ "" ∧ ∃ f, lookupSelectedFir firs results id = some f
          ∧ f.writType = "QUASHING")) := by
  refine ⟨?_, ?_, ?_, ?_⟩
  · intro htype hfir
    rw [typeResetEffect_fir] at hfir
    by_cases hguard : fd.type = ProceedingType.ARGUMENT ∧ fd.fir ≠ ""
    · rw [typeResetEffect, if_pos hguard] at htype
      cases hsel : lookupSelectedFir firs results fd.fir with
      | none =>
        rw [hsel] at htype
        simp [applySelected] at htype
      | some f =>
        rw [hsel] at htype
        by_cases hq : f.writType = "QUASHING"
        · exact ⟨f, rfl, hq⟩
        · rw [show applySelected fd (some f) = { fd with type := .NOTICE_OF_MOTION }
              from by simp [applySelected, hq]] at htype
          simp at htype
    · rw [typeResetEffect, if_neg hguard] at htype
      exact absurd ⟨htype, hfir⟩ hguard
  · intro f htype hfir hsel hq
    rw [typeResetEffect, if_pos ⟨htype, hfir⟩, hsel]
    simp [applySelected, hq]
  · intro htype hfir hsel
    rw [typeResetEffect, if_pos ⟨htype, hfir⟩, hsel]
    simp [applySelected]
  · intro id
    exact (argument_mem_options_iff firs results id).trans
      (isQuashingSel_eq_true_iff firs results id)

/-- Witness for C4: a selected bail writ with the type set to ARGUMENT is
reset to NOTICE_OF_MOTION, and the ARGUMENT option is offered for a
selected quashing writ. -/
theorem argument_requires_quashing_witness :
    (typeResetEffect [⟨"F1", "100", "A", "BAIL"⟩] []
      { initialFormData with fir := "F1", type := ProceedingType.ARGUMENT }).type =
        ProceedingType.NOTICE_OF_MOTION
    ∧ ProceedingType.ARGUMENT ∈
        proceedingTypeOptions [⟨"F2", "101", "B", "QUASHING"⟩] [] "F2" :=
  ⟨(argument_requires_quashing_spec [⟨"F1", "100", "A", "BAIL"⟩] []
      { initialFormData with fir := "F1", type := ProceedingType.ARGUMENT }).2.1
      ⟨"F1", "100", "A", "BAIL"⟩ rfl (by decide) (by decide) (by decide),
   ((argument_requires_quashing_spec [⟨"F2", "101", "B", "QUASHING"⟩] []
      initialFormData).2.2.2 "F2").mpr ⟨by decide, ⟨"F2", "101", "B", "QUASHING"⟩,
      by decide, rfl⟩⟩

/-- C5: the assembled payload contains exactly the type-relevant
sub-objects: noticeOfMotion is present exactly for NOTICE_OF_MOTION and
TO_FILE_REPLY, replyTracking exactly for TO_FILE_REPLY, argumentDetails
exactly for ARGUMENT and decisionDetails exactly for DECISION. -/
theorem payload_subobjects_spec (fd : FormState) :
    ((buildPayload fd).noticeOfMotion.isSome = true ↔
      fd.type = ProceedingType.NOTICE_OF_MOTION
      ∨ fd.type = ProceedingType.TO_FILE_REPLY)
    ∧ ((buildPayload fd).replyTracking.isSome = true ↔
      fd.type = ProceedingType.TO_FILE_REPLY)
    ∧ ((buildPayload fd).argumentDetails.isSome = true ↔
      fd.type = ProceedingType.ARGUMENT)
    ∧ ((buildPayload fd).decisionDetails.isSome = true ↔
      fd.type = ProceedingType.DECISION) := by
  cases htype : fd.type <;> simp [buildPayload, htype]

/-- Witness for C5: with the initial form data (type NOTICE_OF_MOTION)
only the noticeOfMotion sub-object is present. -/
theorem payload_subobjects_witness :
    (buildPayload initialFormData).noticeOfMotion.isSome = true
    ∧ (buildPayload initialFormData).replyTracking.isSome = false
    ∧ (buildPayload initialFormData).argumentDetails.isSome = false
    ∧ (buildPayload initialFormData).decisionDetails.isSome = false :=
  have h := payload_subobjects_spec initialFormData
  ⟨h.1.mpr (Or.inl rfl),
   by
     have h2 := h.2.1
     simp only [show initialFormData.type = ProceedingType.NOTICE_OF_MOTION from rfl]
       at h2
     simp at h2
     simp [h2],
   by
     have h3 := h.2.2.1
     simp only [show initialFormData.type = ProceedingType.NOTICE_OF_MOTION from rfl]
       at h3
     simp at h3
     simp [h3],
   by
     have h4 := h.2.2.2
     simp only [show initialFormData.type = ProceedingType.NOTICE_OF_MOTION from rfl]
       at h4
     simp at h4
     simp [h4]⟩

/-- Counterexample for C9: a successful submission (the call was issued
and the new proceeding was prepended) does not leave the form in its
initial state: the written state differs from the initial literal in the
notice-of-motion entry. -/
theorem submit_reset_counterexample :
    (handleSubmit (some "tok") remoteOk stReady).networkCalled = true
    ∧ (handleSubmit (some "tok") remoteOk stReady).state.proceedings = [pSeq1]
    ∧ (handleSubmit (some "tok") remoteOk stReady).state.formData ≠ initialFormData := by
  refine ⟨?_, ?_, ?_⟩ <;> decide

/-- C9 (amended): submission requires a writ id and a hearing date
(otherwise it is blocked locally with an error message and no remote
call, leaving the rest of the state unchanged); a successful creation
prepends the new proceeding and writes the reset literal, which matches
the initial form values except that the notice-of-motion entry leaves
details unset instead of empty and sets nextDateOfHearing to the empty
string instead of leaving it unset; a failed call surfaces the error
message of the call and leaves the form state unchanged. -/
theorem submit_contract_spec (token : Option String)
    (remote : CreateProceedingInput → Option FileRec → Except String Proceeding)
    (st : PageState) :
    (st.formData.fir = "" ∨ st.formData.hearingDetails.dateOfHearing = "" →
      (handleSubmit token remote st).networkCalled = false
      ∧ (handleSubmit token remote st).state.error =
          some "Please fill in required fields (FIR and Hearing Date)"
      ∧ (handleSubmit token remote st).state.formData = st.formData
      ∧ (handleSubmit token remote st).state.proceedings = st.proceedings)
    ∧ (∀ p, st.formData.fir ≠ "" → st.formData.hearingDetails.dateOfHearing ≠ "" →
        tokenPresent token = true → fileValid st.orderOfProceedingFile = true →
        remote (buildPayload st.formData) st.orderOfProceedingFile = Except.ok p →
        (handleSubmit token remote st).networkCalled = true
        ∧ (handleSubmit token remote st).state.proceedings = p :: st.proceedings
        ∧ (handleSubmit token remote st).state.formData = resetFormData
        ∧ (handleSubmit token remote st).state.error = none
        ∧ (handleSubmit token remote st).state.showCreateForm = false)
    ∧ (∀ msg, st.formData.fir ≠ "" → st.formData.hearingDetails.dateOfHearing ≠ "" →
        tokenPresent token = true → fileValid st.orderOfProceedingFile = true →
        remote (buildPayload st.formData) st.orderOfProceedingFile = Except.error msg →
        (handleSubmit token remote st).networkCalled = true
        ∧ (handleSubmit token remote st).state.error = some msg
        ∧ (handleSubmit token remote st).state.formData = st.formData
        ∧ (handleSubmit token remote st).state.proceedings = st.proceedings
        ∧ (handleSubmit token remote st).state.showCreateForm = st.showCreateForm)
    ∧ resetFormData =
        { initialFormData with noticeOfMotion := [resetNomEntryFromInitial] } := by
  have hstep : ∀ (h1 : st.formData.fir ≠ "")
      (h2 : st.formData.hearingDetails.dateOfHearing ≠ "")
      (htok : tokenPresent token = true)
      (hfile : fileValid st.orderOfProceedingFile = true),
      handleSubmit token remote st = submitCall remote st := by
    intro h1 h2 htok hfile
    rw [handleSubmit, if_neg (not_or.mpr ⟨h1, h2⟩), if_neg (not_not_intro htok)]
    cases hf : st.orderOfProceedingFile with
    | none => simp [fileGate]
    | some f =>
      rw [hf] at hfile
      simp only [fileValid, Bool.and_eq_true, decide_eq_true_eq] at hfile
      obtain ⟨hsize, hmime⟩ := hfile
      simp [fileGate, Nat.not_lt.mpr hsize, hmime]
  refine ⟨?_, ?_, ?_, ?_⟩
  · intro h
    rw [handleSubmit, if_pos h]
    exact ⟨rfl, rfl, rfl, rfl⟩
  · intro p h1 h2 htok hfile hrem
    rw [hstep h1 h2 htok hfile]
    simp [submitCall, hrem]
  · intro msg h1 h2 htok hfile hrem
    rw [hstep h1 h2 htok hfile]
    simp [submitCall, hrem]
  · decide

/-- Witness for C9: a ready submission against an accepting remote
prepends the created record and writes the reset literal; against a
rejecting remote the message is surfaced and the form is unchanged; a
submission with no writ selected is blocked without a network call. -/
theorem submit_contract_witness :
    ((handleSubmit (some "tok") remoteOk stReady).state.proceedings = [pSeq1]
      ∧ (handleSubmit (some "tok") remoteOk stReady).state.formData = resetFormData)
    ∧ ((handleSubmit (some "tok") remoteErr stReady).state.error =
        some "Duplicate case number"
      ∧ (handleSubmit (some "tok") remoteErr stReady).state.formData =
        stReady.formData)
    ∧ (handleSubmit (some "tok") remoteOk
        { stReady with formData := initialFormData }).networkCalled = false :=
  have hs := (submit_contract_spec (some "tok") remoteOk stReady).2.1 pSeq1
    (by decide) (by decide) (by decide) (by decide) rfl
  have hf := (submit_contract_spec (some "tok") remoteErr stReady).2.2.1
    "Duplicate case number" (by decide) (by decide) (by decide) (by decide) rfl
  have hb := (submit_contract_spec (some "tok") remoteOk
    { stReady with formData := initialFormData }).1 (Or.inl rfl)
  ⟨⟨hs.2.1, hs.2.2.1⟩, ⟨hf.2.1, hf.2.2.1⟩, hb.1⟩

theorem bodyMessage_ne_empty {data : BodyData} {s : String}
    (h : bodyMessage data = some s) : s ≠ "" := by
  cases data with
  | obj st m =>
    cases m with
    | none => simp [bodyMessage] at h
    | some t =>
      by_cases ht : t = ""
      · simp [bodyMessage, ht] at h
      · simp [bodyMessage, ht] at h
        rw [← h]
        exact ht
  | arr => simp [bodyMessage] at h
  | other => simp [bodyMessage] at h

theorem msgOr_ne_empty (data : BodyData) (fallback : String)
    (hfb : fallback ≠ "") : msgOr data fallback ≠ "" := by
  rw [msgOr]
  cases hbm : bodyMessage data with
  | none => simpa using hfb
  | some s => simpa using bodyMessage_ne_empty hbm

theorem statusFailMsg_ne_empty (s : Nat) : statusFailMsg s ≠ "" := by
  intro h
  have hlen := congrArg String.length h
  rw [statusFailMsg, String.length_append] at hlen
  have h27 : "Request failed with status ".length = 27 := by decide
  rw [h27] at hlen
  have h0 : String.length "" = 0 := rfl
  rw [h0] at hlen
  omega

theorem authErrMsg_ne_empty (data : BodyData) (status : Nat) :
    authErrMsg data status ≠ "" := by
  rw [authErrMsg]
  split <;> decide

/-- C6: a protected call (path not under /auth/) without a token fails
with an authentication error before the fetch is issued; a 401/403 HTTP
status on a protected call clears the session and redirects (when the
window is not already on an auth view) and fails; an embedded 401/403
status field in an otherwise successful object body does the same; a call
to an /auth/ endpoint never clears the session or redirects; a malformed
body or a non-2xx status always yields a failure with a nonempty
human-readable message. -/
theorem request_spec (token : Option String) (currentPath path : String)
    (status : Nat) (body : Option BodyData) :
    (isAuthEP path = false → tokenPresent token = false →
      (request token currentPath path status body).fetched = false
      ∧ (request token currentPath path status body).result =
          Except.error "Authentication required. Please login again."
      ∧ (request token currentPath path status body).sessionCleared = true)
    ∧ (isAuthEP path = false → tokenPresent token = true →
        isAuthStatus status = true →
        (request token currentPath path status body).sessionCleared = true
        ∧ (request token currentPath path status body).redirected =
            redirectsFrom currentPath
        ∧ ∃ e, (request token currentPath path status body).result =
            Except.error e ∧ e ≠ "")
    ∧ (∀ s m, isAuthEP path = false → tokenPresent token = true →
        isAuthStatus status = false → statusOk status = true →
        body = some (BodyData.obj (some s) m) → isAuthStatus s = true →
        (request token currentPath path status body).sessionCleared = true
        ∧ (request token currentPath path status body).redirected =
            redirectsFrom currentPath
        ∧ ∃ e, (request token currentPath path status body).result =
            Except.error e ∧ e ≠ "")
    ∧ (isAuthEP path = true →
        (request token currentPath path status body).sessionCleared = false
        ∧ (request token currentPath path status body).redirected = false)
    ∧ (isAuthEP path = true ∨ tokenPresent token = true → body = none →
        (request token currentPath path status body).result =
          Except.error "Unable to parse server response")
    ∧ (isAuthEP path = true ∨ tokenPresent token = true →
        statusOk status = false →
        ∃ e, (request token currentPath path status body).result =
          Except.error e ∧ e ≠ "") := by
  refine ⟨?_, ?_, ?_, ?_, ?_, ?_⟩
  · intro hep htok
    refine ⟨?_, ?_, ?_⟩ <;> simp [request, hep, htok]
  · intro hep htok hst
    cases body with
    | none =>
      refine ⟨?_, ?_, "Unable to parse server response", ?_, by decide⟩ <;>
        simp [request, hep, htok, hst]
    | some data =>
      refine ⟨?_, ?_, authErrMsg data status, ?_,
        authErrMsg_ne_empty data status⟩ <;> simp [request, hep, htok, hst]
  · intro s m hep htok hst hok hbody hsa
    subst hbody
    have hs200 : s ≠ 200 := by
      simp only [isAuthStatus, Bool.or_eq_true, decide_eq_true_eq] at hsa
      omega
    refine ⟨?_, ?_, msgOr (BodyData.obj (some s) m) (statusFailMsg s), ?_,
      msgOr_ne_empty _ _ (statusFailMsg_ne_empty s)⟩ <;>
      simp [request, hep, htok, hst, hok, embeddedStatusCheck, hs200, hsa]
  · intro hep
    cases body with
    | none => exact ⟨by simp [request, hep], by simp [request, hep]⟩
    | some data =>
      cases hok : statusOk status with
      | false =>
        exact ⟨by simp [request, hep, hok], by simp [request, hep, hok]⟩
      | true =>
        cases data with
        | arr =>
          exact ⟨by simp [request, hep, hok, embeddedStatusCheck, okEffects],
                 by simp [request, hep, hok, embeddedStatusCheck, okEffects]⟩
        | other =>
          exact ⟨by simp [request, hep, hok, embeddedStatusCheck, okEffects],
                 by simp [request, hep, hok, embeddedStatusCheck, okEffects]⟩
        | obj st m =>
          cases st with
          | none =>
            exact ⟨by simp [request, hep, hok, embeddedStatusCheck, okEffects],
                   by simp [request, hep, hok, embeddedStatusCheck, okEffects]⟩
          | some s =>
            by_cases hs : s = 200
            · exact ⟨by simp [request, hep, hok, embeddedStatusCheck, okEffects, hs],
                     by simp [request, hep, hok, embeddedStatusCheck, okEffects, hs]⟩
            · exact ⟨by simp [request, hep, hok, embeddedStatusCheck, okEffects, hs],
                     by simp [request, hep, hok, embeddedStatusCheck, okEffects, hs]⟩
  · intro hpre hbody
    subst hbody
    rcases hpre with hep | htok
    · simp [request, hep]
    · simp [request, htok]
  · intro hpre hok
    have hguard : (!(isAuthEP path) && !(tokenPresent token)) = false := by
      rcases hpre with hep | htok
      · simp [hep]
      · simp [htok]
    cases body with
    | none =>
      exact ⟨"Unable to parse server response", by simp [request, hguard], by decide⟩
    | some data =>
      cases hauth : (!(isAuthEP path) && isAuthStatus status) with
      | true =>
        exact ⟨authErrMsg data status, by simp [request, hguard, hauth],
          authErrMsg_ne_empty data status⟩
      | false =>
        exact ⟨msgOr data (statusFailMsg status),
          by simp [request, hguard, hauth, hok],
          msgOr_ne_empty _ _ (statusFailMsg_ne_empty status)⟩

/-- Witness for C6: a protected call without a token fails before any
fetch and clears the session; a 401 on a protected call clears the
session; a 401 on the login endpoint does not; an embedded 403 status
field in a successful body clears the session. -/
theorem request_witness :
    ((request none "/dashboard" "/v1/proceedings" 200 none).fetched = false
      ∧ (request none "/dashboard" "/v1/proceedings" 200 none).result =
          Except.error "Authentication required. Please login again."
      ∧ (request none "/dashboard" "/v1/proceedings" 200 none).sessionCleared = true)
    ∧ (request (some "t") "/dashboard" "/v1/firs" 401
        (some BodyData.arr)).sessionCleared = true
    ∧ (request (some "t") "/dashboard" "/auth/login" 401
        (some BodyData.arr)).sessionCleared = false
    ∧ (request (some "t") "/dashboard" "/v1/firs" 200
        (some (BodyData.obj (some 403) none))).sessionCleared = true :=
  have h1 := (request_spec none "/dashboard" "/v1/proceedings" 200 none).1
    (by decide) (by decide)
  have h2 := (request_spec (some "t") "/dashboard" "/v1/firs" 401
    (some BodyData.arr)).2.1 (by decide) (by decide) (by decide)
  have h3 := (request_spec (some "t") "/dashboard" "/auth/login" 401
    (some BodyData.arr)).2.2.2.1 (by decide)
  have h4 := (request_spec (some "t") "/dashboard" "/v1/firs" 200
    (some (BodyData.obj (some 403) none))).2.2.1 403 none (by decide) (by decide)
    (by decide) (by decide) rfl (by decide)
  ⟨h1, h2.1, h3.1, h4.1⟩

theorem probe_found_of_mem_draftIds {probe : String → ProbeOutcome}
    {firs : List FIRRec} {id : String} (h : id ∈ draftIds probe firs) :
    probe id = ProbeOutcome.found := by
  rw [draftIds] at h
  obtain ⟨g, hg, hid⟩ := List.mem_map.mp h
  obtain ⟨-, hp⟩ := List.mem_filter.mp hg
  rw [decide_eq_true_eq] at hp
  rw [← hid]
  exact hp

/-- C7: a fetched writ whose draft probe finds a draft is excluded from
the picker list and from the filtered search results (its id sits in the
draft set); a writ whose probe finds no draft, and equally one whose
probe fails, is kept in the picker list and survives the search filter
whenever the server returns it. -/
theorem draft_exclusion_spec (probe : String → ProbeOutcome)
    (firs results : List FIRRec) (f : FIRRec) (hf : f ∈ firs) :
    (probe f._id = ProbeOutcome.found →
      f ∉ firsWithoutDrafts probe firs
      ∧ f._id ∈ draftIds probe firs
      ∧ f ∉ filterSearchResults probe firs results)
    ∧ (probe f._id = ProbeOutcome.notFound →
      f ∈ firsWithoutDrafts probe firs
      ∧ (f ∈ results → f ∈ filterSearchResults probe firs results))
    ∧ (probe f._id = ProbeOutcome.failed →
      f ∈ firsWithoutDrafts probe firs
      ∧ (f ∈ results → f ∈ filterSearchResults probe firs results)) := by
  have hnotin : probe f._id ≠ ProbeOutcome.found →
      f ∈ firsWithoutDrafts probe firs
      ∧ (f ∈ results → f ∈ filterSearchResults probe firs results) := by
    intro hne
    constructor
    · exact List.mem_filter.mpr ⟨hf, by simpa using hne⟩
    · intro hr
      refine List.mem_filter.mpr ⟨hr, ?_⟩
      rw [decide_eq_true_eq]
      intro hin
      exact hne (probe_found_of_mem_draftIds hin)
  refine ⟨?_, ?_, ?_⟩
  · intro hfound
    have hid : f._id ∈ draftIds probe firs := by
      rw [draftIds]
      exact List.mem_map.mpr ⟨f, List.mem_filter.mpr ⟨hf, by simpa using hfound⟩, rfl⟩
    refine ⟨?_, hid, ?_⟩
    · intro hmem
      obtain ⟨-, hp⟩ := List.mem_filter.mp hmem
      rw [decide_eq_true_eq] at hp
      exact hp hfound
    · intro hmem
      obtain ⟨-, hp⟩ := List.mem_filter.mp hmem
      rw [decide_eq_true_eq] at hp
      exact hp hid
  · intro hnf
    exact hnotin (by rw [hnf]; intro h; cases h)
  · intro hfail
    exact hnotin (by rw [hfail]; intro h; cases h)

/-- Witness for C7: with a probe that finds a draft for F1, fails for F2
and finds none for F3, the picker keeps exactly F2 and F3, and a search
returning all three keeps F2 and F3. -/
theorem draft_exclusion_witness :
    ((⟨"F1", "1", "A", "BAIL"⟩ : FIRRec) ∉ firsWithoutDrafts
        (fun id => if id = "F1" then ProbeOutcome.found
          else if id = "F2" then ProbeOutcome.failed else ProbeOutcome.notFound)
        [⟨"F1", "1", "A", "BAIL"⟩, ⟨"F2", "2", "B", "BAIL"⟩, ⟨"F3", "3", "C", "BAIL"⟩])
    ∧ ((⟨"F2", "2", "B", "BAIL"⟩ : FIRRec) ∈ firsWithoutDrafts
        (fun id => if id = "F1" then ProbeOutcome.found
          else if id = "F2" then ProbeOutcome.failed else ProbeOutcome.notFound)
        [⟨"F1", "1", "A", "BAIL"⟩, ⟨"F2", "2", "B", "BAIL"⟩, ⟨"F3", "3", "C", "BAIL"⟩])
    ∧ ((⟨"F3", "3", "C", "BAIL"⟩ : FIRRec) ∈ filterSearchResults
        (fun id => if id = "F1" then ProbeOutcome.found
          else if id = "F2" then ProbeOutcome.failed else ProbeOutcome.notFound)
        [⟨"F1", "1", "A", "BAIL"⟩, ⟨"F2", "2", "B", "BAIL"⟩, ⟨"F3", "3", "C", "BAIL"⟩]
        [⟨"F1", "1", "A", "BAIL"⟩, ⟨"F2", "2", "B", "BAIL"⟩, ⟨"F3", "3", "C", "BAIL"⟩]) :=
  have h1 := (draft_exclusion_spec
    (fun id => if id = "F1" then ProbeOutcome.found
      else if id = "F2" then ProbeOutcome.failed else ProbeOutcome.notFound)
    [⟨"F1", "1", "A", "BAIL"⟩, ⟨"F2", "2", "B", "BAIL"⟩, ⟨"F3", "3", "C", "BAIL"⟩]
    [⟨"F1", "1", "A", "BAIL"⟩, ⟨"F2", "2", "B", "BAIL"⟩, ⟨"F3", "3", "C", "BAIL"⟩]
    ⟨"F1", "1", "A", "BAIL"⟩ (by decide)).1 (by decide)
  have h2 := (draft_exclusion_spec
    (fun id => if id = "F1" then ProbeOutcome.found
      else if id = "F2" then ProbeOutcome.failed else ProbeOutcome.notFound)
    [⟨"F1", "1", "A", "BAIL"⟩, ⟨"F2", "2", "B", "BAIL"⟩, ⟨"F3", "3", "C", "BAIL"⟩]
    [⟨"F1", "1", "A", "BAIL"⟩, ⟨"F2", "2", "B", "BAIL"⟩, ⟨"F3", "3", "C", "BAIL"⟩]
    ⟨"F2", "2", "B", "BAIL"⟩ (by decide)).2.2 (by decide)
  have h3 := (draft_exclusion_spec
    (fun id => if id = "F1" then ProbeOutcome.found
      else if id = "F2" then ProbeOutcome.failed else ProbeOutcome.notFound)
    [⟨"F1", "1", "A", "BAIL"⟩, ⟨"F2", "2", "B", "BAIL"⟩, ⟨"F3", "3", "C", "BAIL"⟩]
    [⟨"F1", "1", "A", "BAIL"⟩, ⟨"F2", "2", "B", "BAIL"⟩, ⟨"F3", "3", "C", "BAIL"⟩]
    ⟨"F3", "3", "C", "BAIL"⟩ (by decide)).2.1 (by decide)
  ⟨h1.1, h2.1, h3.2 (by decide)⟩

/-- C10: for a proceeding whose fir field is a plain id string the search
predicate reduces to the summary, judge and court clauses (the writ
number and petitioner clauses never participate), so such a proceeding
with none of those three fields matching is never returned; a proceeding
embedding its writ object additionally matches on the writ number and the
petitioner name. -/
theorem search_id_only_spec (term : String) (p : Proceeding) :
    (∀ s, p.fir = FirRef.byId s →
      matchesSearch term p =
        (optLowerIncludes p.summary term
          || optLowerIncludes (p.hearingDetails.bind (fun h => h.judgeName)) term
          || optLowerIncludes (p.hearingDetails.bind (fun h => h.courtNumber)) term))
    ∧ (∀ f, p.fir = FirRef.emb f →
        matchesSearch term p =
          (optLowerIncludes p.summary term
            || optLowerIncludes (p.hearingDetails.bind (fun h => h.judgeName)) term
            || optLowerIncludes (p.hearingDetails.bind (fun h => h.courtNumber)) term
            || lowerIncludes f.firNumber term
            || lowerIncludes f.petitionerName term))
    ∧ (∀ s, p.fir = FirRef.byId s →
        optLowerIncludes p.summary term = false →
        optLowerIncludes (p.hearingDetails.bind (fun h => h.judgeName)) term = false →
        optLowerIncludes (p.hearingDetails.bind (fun h => h.courtNumber)) term = false →
        matchesSearch term p = false) := by
  refine ⟨?_, ?_, ?_⟩
  · intro s hfir
    rw [matchesSearch, hfir]
    simp [firNumberMatch, petitionerMatch]
  · intro f hfir
    rw [matchesSearch, hfir]
    simp [firNumberMatch, petitionerMatch]
  · intro s hfir h1 h2 h3
    rw [matchesSearch, hfir, h1, h2, h3]
    simp [firNumberMatch, petitionerMatch]

/-- Witness for C10: searching john does not return the id-only
proceeding even though its writ petitioner is John Doe, because none of
the searched fields of the record contain the term. -/
theorem search_id_only_witness : matchesSearch "john" pIdOnly = false :=
  (search_id_only_spec "john" pIdOnly).2.2 "W9" rfl (by decide) (by decide)
    (by decide)

/-- Counterexample for C8: the produced bar list is not ordered by
descending case count; the fetched order [1, 5] is preserved. -/
theorem cityBars_not_sorted_counterexample :
    ¬ List.Pairwise (fun a b : CityBar => b.count ≤ a.count) (cityBars gUnsorted) := by
  decide

theorem cityBarsGo_label (total maxC : Nat) (l : List FIRCityBreakdown) :
    ∀ i, (cityBarsGo total maxC i l).map (fun b => b.label) =
      l.map (fun x => x.branch) := by
  induction l with
  | nil => intro i; rfl
  | cons c rest ih =>
    intro i
    simp [cityBarsGo, cityBar, ih (i + 1)]

theorem cityBarsGo_count (total maxC : Nat) (l : List FIRCityBreakdown) :
    ∀ i, (cityBarsGo total maxC i l).map (fun b => b.count) =
      l.map (fun x => x.count) := by
  induction l with
  | nil => intro i; rfl
  | cons c rest ih =>
    intro i
    simp [cityBarsGo, cityBar, ih (i + 1)]

/-- C8 (amended): the per-branch bar list preserves the order of the
fetched collection (labels and counts are the fetched ones in fetched
order; no sorting by magnitude is applied), and each status segment
percent is the count as a share of the total of all status counts,
rounded half-up to a whole percent (it differs from the exact share
100 * count / total by at most half a point). -/
theorem dashboard_aggregation_spec (g : List FIRCityBreakdown) :
    ((cityBars g).map (fun b => b.label) = g.map (fun x => x.branch)
      ∧ (cityBars g).map (fun b => b.count) = g.map (fun x => x.count))
    ∧ (∀ totals c : Nat, 0 < totals →
        |(pieSegmentPercent totals c : ℚ) - 100 * c / totals| ≤ 1 / 2) := by
  constructor
  · by_cases hg : g.length = 0
    · rw [List.length_eq_zero] at hg
      subst hg
      exact ⟨rfl, rfl⟩
    · rw [cityBars, if_neg hg]
      exact ⟨cityBarsGo_label _ _ g 0, cityBarsGo_count _ _ g 0⟩
  · intro t c ht
    rw [pieSegmentPercent, if_pos ht, jsRoundRatio100]
    have h := Nat.div_add_mod (200 * c + t) (2 * t)
    have hm := Nat.mod_lt (200 * c + t) (show 0 < 2 * t by omega)
    have hl : 2 * t * ((200 * c + t) / (2 * t)) ≤ 200 * c + t := by omega
    have hr : 200 * c + t < 2 * t * ((200 * c + t) / (2 * t)) + 2 * t := by omega
    generalize hgen : (200 * c + t) / (2 * t) = q at hl hr ⊢
    have hlq : (2 * (t : ℚ) * q ≤ 200 * c + t) := by exact_mod_cast hl
    have hrq : ((200 * c + t : ℚ) < 2 * t * q + 2 * t) := by exact_mod_cast hr
    have htq : (0 : ℚ) < t := by exact_mod_cast ht
    rw [abs_le]
    constructor
    · have hdiv : 100 * (c : ℚ) / t ≤ (q : ℚ) + 1 / 2 := by
        rw [div_le_iff₀ htq]
        nlinarith
      linarith
    · have hdiv : (q : ℚ) - 1 / 2 ≤ 100 * (c : ℚ) / t := by
        rw [le_div_iff₀ htq]
        nlinarith
      linarith

/-- Witness for C8: on the unsorted example the bars keep the fetched
labels and counts in order, and a one-of-six segment shows 17 percent,
within half a point of its exact share. -/
theorem dashboard_aggregation_witness :
    ((cityBars gUnsorted).map (fun b => b.label) = ["A", "B"]
      ∧ (cityBars gUnsorted).map (fun b => b.count) = [1, 5])
    ∧ |(pieSegmentPercent 6 1 : ℚ) - 100 * 1 / 6| ≤ 1 / 2 :=
  have h := dashboard_aggregation_spec gUnsorted
  ⟨⟨h.1.1.trans (by decide), h.1.2.trans (by decide)⟩, h.2 6 1 (by decide)⟩

end AppealTrax
